import Mathlib

/-!
Verification development for the delayed-action scheduler of the
AutomationMaster repository.

The embedding covers:
  - the data model of `shared/schema.ts` (`rules`, `actions`, `activity_logs`
    tables), restricted to the columns that the embedded operations read or
    write;
  - the storage layer `DatabaseStorage` of `server/storage.ts`
    (`getRuleById`, `getActionById`, `createActivityLog`,
    `getPendingScheduledActions`, `getActivityLogsByStatus`,
    `markActivityLogAsExecuted`, `updateRuleLastTriggered`);
  - the scheduler `SchedulerService` of `server/scheduler.ts`
    (`scheduleAction`, `executeAction`, `processScheduledActions`,
    `triggerImmediateAction`).

Modelling conventions:
  - Timestamps (`Date`, `Date.now()`) are naturals counting milliseconds.
    Every operation that reads the clock takes the current time as an
    explicit argument; `mockExecuteAction` advances the clock by the wall
    time `dt` it consumes (the source always awaits a 500 ms timer inside
    it, so `dt` is positive in any real run, but no bound is assumed).
  - The Postgres tables are lists of rows in insertion order; `serial`
    primary keys are handed out from a counter.  A `WHERE eq(col, v)`
    select is a filter, destructuring `const [row] = ...` is `head?`,
    an `UPDATE ... WHERE ... RETURNING` maps the row update over the table
    and returns the first updated row, and `ORDER BY col DESC` is a sort.
  - `mockExecuteAction` draws `Math.random()` and builds a mock result
    record; it is abstracted as an oracle value `ExecOutcome` giving the
    reported `success` flag, the result payload, and the elapsed time.
  - JavaScript exceptions are `Except`; a thrown error carries the store
    state and clock at the throw point, since mutations made before the
    throw persist.  Infrastructure failures of the `activity_logs` update
    statement (the store being unreachable) are injected through the
    `markFails` field of the store state; all other operations of the
    in-memory model are total.
  - JSON payloads (`details`, `actionDetails`) are association lists of
    string keys and primitive values; a nested mock-result object is
    abstracted as a single opaque value.
-/

namespace AutomationMaster

/-- A primitive JSON value appearing in a `details` payload. -/
inductive JVal where
  | s : String → JVal
  | n : Nat → JVal
  | b : Bool → JVal
  deriving DecidableEq, Repr

/-- A JSON object payload (`Record<string, any>`), as an association list. -/
abbrev Details := List (String × JVal)

/-- Key lookup in a JSON object. -/
def detailsGet (d : Details) (k : String) : Option JVal :=
  (d.find? (fun p => decide (p.1 = k))).map (fun p => p.2)

/-- The JavaScript object spread `\x7b...d, k: v\x7d`: if `k` is already a key
its value is overwritten in place, otherwise the pair is appended. -/
def detailsInsert (d : Details) (k : String) (v : JVal) : Details :=
  if d.any (fun p => decide (p.1 = k)) then
    d.map (fun p => if p.1 = k then (k, v) else p)
  else
    d ++ [(k, v)]

/-- The `activity_status` enum of `shared/schema.ts`. -/
inductive Status where
  | success
  | failed
  | scheduled
  | canceled
  deriving DecidableEq, Repr

/-- A row of the `rules` table, restricted to the columns the scheduler
reads (`id`, `name`, `actionId`, `actionDetails`, `isActive`,
`lastTriggered`); the remaining columns (`triggerId`, `actionType`,
`scheduleDelay`, ...) are never read by the embedded operations. -/
structure Rule where
  id : Nat
  name : String
  actionId : Nat
  actionDetails : Details
  isActive : Bool
  lastTriggered : Option Nat
  deriving DecidableEq, Repr

/-- A row of the `actions` table (columns read by the scheduler). -/
structure Action where
  id : Nat
  name : String
  deriving DecidableEq, Repr

/-- A row of the `activity_logs` table.  `triggeredAt` has a `now()`
column default and both code paths that insert rows always supply it, so
it is modelled as non-optional. -/
structure ActivityLog where
  id : Nat
  ruleId : Nat
  triggeredAt : Nat
  status : Status
  details : Details
  scheduleTime : Option Nat
  executedAt : Option Nat
  executionDuration : Option Nat
  deriving DecidableEq, Repr

/-- `InsertActivityLog`: an `activity_logs` insert payload (`id` omitted,
assigned by the serial column). -/
structure InsertActivityLog where
  ruleId : Nat
  triggeredAt : Nat
  status : Status
  details : Details
  scheduleTime : Option Nat := none
  executedAt : Option Nat := none
  executionDuration : Option Nat := none
  deriving DecidableEq, Repr

/-- The database state seen by `DatabaseStorage`: the three tables, the
next `activity_logs` serial id, and the fault-injection set `markFails`
(ids for which the `activity_logs` UPDATE of `markActivityLogAsExecuted`
fails with an infrastructure error instead of committing). -/
structure DB where
  rules : List Rule
  actions : List Action
  activityLogs : List ActivityLog
  nextLogId : Nat
  markFails : List Nat
  deriving DecidableEq, Repr

/-- Insert one element into a list sorted by `key` descending. -/
def insertDescBy {α : Type} (key : α → Nat) (a : α) : List α → List α
  | [] => [a]
  | b :: rest =>
      if key b ≤ key a then a :: b :: rest else b :: insertDescBy key a rest

/-- `ORDER BY key DESC` over a table, as an insertion sort. -/
def orderByDesc {α : Type} (key : α → Nat) : List α → List α
  | [] => []
  | a :: rest => insertDescBy key a (orderByDesc key rest)

/-- `DatabaseStorage.getRuleById`: first `rules` row with the given id. -/
def getRuleById (db : DB) (id : Nat) : Option Rule :=
  ((db.rules.filter (fun r => decide (r.id = id)))).head?

/-- `DatabaseStorage.getActionById`: first `actions` row with the id. -/
def getActionById (db : DB) (id : Nat) : Option Action :=
  ((db.actions.filter (fun a => decide (a.id = id)))).head?

/-- `DatabaseStorage.createActivityLog`: insert a row, serial id assigned
by the database, and return the inserted row. -/
def createActivityLog (db : DB) (logData : InsertActivityLog) : ActivityLog × DB :=
  let log : ActivityLog :=
    { id := db.nextLogId
      ruleId := logData.ruleId
      triggeredAt := logData.triggeredAt
      status := logData.status
      details := logData.details
      scheduleTime := logData.scheduleTime
      executedAt := logData.executedAt
      executionDuration := logData.executionDuration }
  (log, { db with activityLogs := db.activityLogs ++ [log],
                  nextLogId := db.nextLogId + 1 })

/-- The due test of `getPendingScheduledActions`:
`action.scheduleTime !== null && new Date(action.scheduleTime) <= now`. -/
def isDue (now : Nat) (a : ActivityLog) : Bool :=
  match a.scheduleTime with
  | none => false
  | some t => decide (t ≤ now)

/-- `DatabaseStorage.getPendingScheduledActions`: select the rows with
status `scheduled`, then filter to those whose `scheduleTime` is set and
has passed. -/
def getPendingScheduledActions (db : DB) (now : Nat) : List ActivityLog :=
  let scheduledActions := db.activityLogs.filter (fun a => decide (a.status = Status.scheduled))
  scheduledActions.filter (isDue now)

/-- `DatabaseStorage.getActivityLogsByStatus`: rows with the given status,
ordered by `triggeredAt` descending. -/
def getActivityLogsByStatus (db : DB) (status : Status) : List ActivityLog :=
  orderByDesc (fun a => a.triggeredAt)
    (db.activityLogs.filter (fun a => decide (a.status = status)))

/-- The row update performed by the `markActivityLogAsExecuted` UPDATE
statement on the rows matching `id`.  `executionDuration` is set to
`Date.now() - startTime` where `startTime` was read by the same
synchronous tick a few lines above, hence `0`.  The `details` column is
included in the SET only when the optional argument was passed, and then
holds exactly the argument. -/
def markUpd (id : Nat) (status : Status) (dopt : Option Details) (now : Nat)
    (a : ActivityLog) : ActivityLog :=
  if a.id = id then
    { a with status := status, executedAt := some now,
             executionDuration := some 0, details := dopt.getD a.details }
  else a

/-- `DatabaseStorage.markActivityLogAsExecuted`: one UPDATE setting
status, `executedAt`, `executionDuration` and (when supplied) `details`
on the rows with the given id, returning the first updated row, or `none`
when no row matched.  When the id is in the fault set `markFails`, the
statement fails with an infrastructure error and nothing is committed. -/
def markActivityLogAsExecuted (db : DB) (id : Nat) (status : Status)
    (dopt : Option Details) (now : Nat) : Except String (Option ActivityLog × DB) :=
  if db.markFails.contains id then
    Except.error "activity_logs update failed: store unreachable"
  else
    let logs := db.activityLogs.map (markUpd id status dopt now)
    Except.ok ((logs.filter (fun a => decide (a.id = id))).head?,
               { db with activityLogs := logs })

/-- The row update of the `updateRuleLastTriggered` UPDATE statement on
the rules matching `id`: SET `lastTriggered` to the current time. -/
def ruleUpd (id : Nat) (now : Nat) (r : Rule) : Rule :=
  if r.id = id then { r with lastTriggered := some now } else r

/-- `DatabaseStorage.updateRuleLastTriggered`: UPDATE setting
`lastTriggered` to the current time on the rules with the given id,
returning the first updated row. -/
def updateRuleLastTriggered (db : DB) (id : Nat) (now : Nat) : Option Rule × DB :=
  let rs := db.rules.map (ruleUpd id now)
  ((rs.filter (fun r => decide (r.id = id))).head?, { db with rules := rs })

/-- The `activity_logs` row with the given id (lookup helper used by the
theorem statements). -/
def logById (db : DB) (id : Nat) : Option ActivityLog :=
  db.activityLogs.find? (fun a => decide (a.id = id))

/-- Oracle for one call of `SchedulerService.mockExecuteAction`: the
reported `success` flag (drawn from `Math.random()` in the source), the
mock result payload (abstracted as one opaque value), and the wall time
`dt` the call consumes (the source awaits a 500 ms timer). -/
structure ExecOutcome where
  success : Bool
  result : JVal
  dt : Nat
  deriving DecidableEq, Repr

/-- `SchedulerService.scheduleAction`: create an activity-log entry with
status `scheduled`, `triggeredAt = now` and
`scheduleTime = now + delayMinutes * 60 * 1000`, and return it. -/
def scheduleAction (db : DB) (now : Nat) (ruleId : Nat) (delayMinutes : Nat)
    (details : Details) : ActivityLog × DB :=
  let scheduleTime := now + delayMinutes * 60 * 1000
  createActivityLog db
    { ruleId := ruleId
      status := Status.scheduled
      details := details
      scheduleTime := some scheduleTime
      triggeredAt := now }

/-- The body of `SchedulerService.executeAction` (the contents of its
`try` block).  An error value carries the message together with the store
state and clock at the throw point. -/
def executeActionBody (db : DB) (t : Nat) (activityLogId : Nat) (exec : ExecOutcome) :
    Except (String × DB × Nat) (DB × Nat) :=
  let logs := getActivityLogsByStatus db Status.scheduled
  match logs.find? (fun l => decide (l.id = activityLogId)) with
  | none => Except.ok (db, t)
  | some activityLog =>
    match getRuleById db activityLog.ruleId with
    | none =>
      match markActivityLogAsExecuted db activityLogId Status.failed
          (some [("error", JVal.s "Rule not found"), ("status", JVal.s "canceled")]) t with
      | Except.ok (_, db1) => Except.ok (db1, t)
      | Except.error e => Except.error (e, db, t)
    | some rule =>
      if rule.isActive = false then
        match markActivityLogAsExecuted db activityLogId Status.failed
            (some [("error", JVal.s "Rule is inactive"), ("status", JVal.s "canceled")]) t with
        | Except.ok (_, db1) => Except.ok (db1, t)
        | Except.error e => Except.error (e, db, t)
      else
        match getActionById db rule.actionId with
        | none =>
          match markActivityLogAsExecuted db activityLogId Status.failed
              (some [("error", JVal.s "Action not found")]) t with
          | Except.ok (_, db1) => Except.ok (db1, t)
          | Except.error e => Except.error (e, db, t)
        | some _action =>
          let t1 := t + exec.dt
          let db1 := (updateRuleLastTriggered db rule.id t1).2
          match markActivityLogAsExecuted db1 activityLogId
              (if exec.success then Status.success else Status.failed)
              (some (detailsInsert activityLog.details "execution" exec.result)) t1 with
          | Except.ok (_, db2) => Except.ok (db2, t1)
          | Except.error e => Except.error (e, db1, t1)

/-- `SchedulerService.executeAction` with its `catch` clause: a thrown
error is recorded by marking the entry `failed` with the error message;
if that store write itself throws, the error propagates to the caller. -/
def executeAction (db : DB) (t : Nat) (activityLogId : Nat) (exec : ExecOutcome) :
    Except (String × DB × Nat) (DB × Nat) :=
  match executeActionBody db t activityLogId exec with
  | Except.ok r => Except.ok r
  | Except.error (msg, db1, t1) =>
    match markActivityLogAsExecuted db1 activityLogId Status.failed
        (some [("error", JVal.s msg)]) t1 with
    | Except.ok (_, db2) => Except.ok (db2, t1)
    | Except.error e2 => Except.error (e2, db1, t1)

/-- The `for` loop of `processScheduledActions`: execute each pending id
sequentially; an error escaping `executeAction` aborts the loop. -/
def processLoop (oracle : Nat → ExecOutcome) :
    DB → Nat → List Nat → Except (String × DB × Nat) (DB × Nat)
  | db, t, [] => Except.ok (db, t)
  | db, t, id :: rest =>
    match executeAction db t id (oracle id) with
    | Except.ok (db1, t1) => processLoop oracle db1 t1 rest
    | Except.error e => Except.error e

/-- The body of `SchedulerService.processScheduledActions` (the contents
of its `try` block): fetch the due entries once, then run the loop. -/
def processScheduledActionsBody (oracle : Nat → ExecOutcome) (db : DB) (t : Nat) :
    Except (String × DB × Nat) (DB × Nat) :=
  let pendingActions := getPendingScheduledActions db t
  processLoop oracle db t (pendingActions.map (fun a => a.id))

/-- `SchedulerService.processScheduledActions` with its `catch` clause:
any error is logged and swallowed, so the timer callback always returns
the store state reached so far. -/
def processScheduledActions (oracle : Nat → ExecOutcome) (db : DB) (t : Nat) : DB × Nat :=
  match processScheduledActionsBody oracle db t with
  | Except.ok r => r
  | Except.error (_, db1, t1) => (db1, t1)

/-- `SchedulerService.triggerImmediateAction`.  The three validation
failures throw before any store mutation; the error value carries the
store state at the throw point.  On the run path the source reads the
clock for `now`, `executionStart` and `executionEnd` only after
`mockExecuteAction` has returned, so all three reads yield the same
instant `t + exec.dt`. -/
def triggerImmediateAction (db : DB) (t : Nat) (ruleId : Nat) (exec : ExecOutcome) :
    Except (String × DB × Nat) (ActivityLog × DB × Nat) :=
  match getRuleById db ruleId with
  | none => Except.error ("Rule with ID " ++ toString ruleId ++ " not found", db, t)
  | some rule =>
    if rule.isActive = false then
      Except.error ("Rule with ID " ++ toString ruleId ++ " is inactive", db, t)
    else
      match getActionById db rule.actionId with
      | none =>
        Except.error ("Action with ID " ++ toString rule.actionId ++ " not found", db, t)
      | some action =>
        let t1 := t + exec.dt
        let now := t1
        let executionStart := t1
        let executionEnd := t1
        let executionDuration := executionEnd - executionStart
        let created := createActivityLog db
          { ruleId := ruleId
            status := if exec.success then Status.success else Status.failed
            triggeredAt := now
            executedAt := some now
            executionDuration := some executionDuration
            details := [("executedAt", JVal.n now), ("triggerTime", JVal.n now),
                        ("actionName", JVal.s action.name),
                        ("executionResult", exec.result)] }
        let db2 := (updateRuleLastTriggered created.2 rule.id t1).2
        Except.ok (created.1, db2, t1)

/-- The store state in which an `executeAction` or `processScheduledActions`
run ended, whether it returned or threw. -/
def loopDB (r : Except (String × DB × Nat) (DB × Nat)) : DB :=
  match r with
  | Except.ok (db, _) => db
  | Except.error (_, db, _) => db


theorem insertDescBy_perm {α : Type} (key : α → Nat) (a : α) :
    ∀ l : List α, (insertDescBy key a l).Perm (a :: l)
  | [] => List.Perm.refl _
  | b :: rest => by
      unfold insertDescBy
      by_cases h : key b ≤ key a
      · rw [if_pos h]
      · rw [if_neg h]
        exact (List.Perm.cons b (insertDescBy_perm key a rest)).trans (List.Perm.swap a b rest)

theorem orderByDesc_perm {α : Type} (key : α → Nat) :
    ∀ l : List α, (orderByDesc key l).Perm l
  | [] => List.Perm.refl _
  | a :: rest => by
      unfold orderByDesc
      exact (insertDescBy_perm key a (orderByDesc key rest)).trans
        (List.Perm.cons a (orderByDesc_perm key rest))

theorem mem_orderByDesc {α : Type} {key : α → Nat} {l : List α} {x : α} :
    x ∈ orderByDesc key l ↔ x ∈ l :=
  (orderByDesc_perm key l).mem_iff

theorem mem_getActivityLogsByStatus {db : DB} {st : Status} {a : ActivityLog} :
    a ∈ getActivityLogsByStatus db st ↔ a ∈ db.activityLogs ∧ a.status = st := by
  unfold getActivityLogsByStatus
  rw [mem_orderByDesc, List.mem_filter]
  simp

theorem head?_filter_eq_find? {α : Type} (p : α → Bool) :
    ∀ l : List α, (l.filter p).head? = l.find? p
  | [] => rfl
  | a :: l => by
      cases h : p a <;>
        simp [List.filter_cons, List.find?_cons, h, head?_filter_eq_find? p l]

theorem find?_id_of_mem :
    ∀ {l : List ActivityLog}, (l.map (fun a => a.id)).Nodup →
      ∀ {entry : ActivityLog}, entry ∈ l →
        l.find? (fun a => decide (a.id = entry.id)) = some entry := by
  intro l
  induction l with
  | nil => intro _ entry h; cases h
  | cons b bs ih =>
      intro hn entry hmem
      rw [List.map_cons, List.nodup_cons] at hn
      rcases List.mem_cons.mp hmem with rfl | hmem2
      · rw [List.find?_cons_of_pos]
        simp
      · rw [List.find?_cons_of_neg, ih hn.2 hmem2]
        simp
        intro heq
        exact hn.1 (heq ▸ List.mem_map_of_mem (fun a => a.id) hmem2)


theorem eq_of_mem_idNodup {l : List ActivityLog} (hn : (l.map (fun a => a.id)).Nodup)
    {x y : ActivityLog} (hx : x ∈ l) (hy : y ∈ l) (h : x.id = y.id) : x = y := by
  have h1 := find?_id_of_mem hn hx
  have h2 := find?_id_of_mem hn hy
  rw [h] at h1
  rw [h1] at h2
  exact Option.some.inj h2

theorem idsNodup_getActivityLogsByStatus {db : DB}
    (hn : (db.activityLogs.map (fun a => a.id)).Nodup) (st : Status) :
    ((getActivityLogsByStatus db st).map (fun a => a.id)).Nodup := by
  have hperm := (orderByDesc_perm (fun a : ActivityLog => a.triggeredAt)
    (db.activityLogs.filter (fun a => decide (a.status = st)))).map (fun a => a.id)
  unfold getActivityLogsByStatus
  rw [hperm.nodup_iff]
  exact List.Nodup.sublist
    (List.Sublist.map (fun a => a.id) (List.filter_sublist db.activityLogs)) hn

theorem find?_sched_eq_some {db : DB}
    (hn : (db.activityLogs.map (fun a => a.id)).Nodup)
    {entry : ActivityLog} (hmem : entry ∈ db.activityLogs)
    (hst : entry.status = Status.scheduled) :
    (getActivityLogsByStatus db Status.scheduled).find?
      (fun l => decide (l.id = entry.id)) = some entry :=
  find?_id_of_mem (idsNodup_getActivityLogsByStatus hn Status.scheduled)
    (mem_getActivityLogsByStatus.mpr ⟨hmem, hst⟩)

theorem find?_sched_eq_none {db : DB} {i : Nat}
    (h : ∀ x ∈ db.activityLogs, x.status = Status.scheduled → ¬ x.id = i) :
    (getActivityLogsByStatus db Status.scheduled).find?
      (fun l => decide (l.id = i)) = none := by
  rw [List.find?_eq_none]
  intro x hx
  rcases mem_getActivityLogsByStatus.mp hx with ⟨hmem, hst⟩
  simpa using h x hmem hst

theorem markUpd_id (id : Nat) (st : Status) (dopt : Option Details) (now : Nat)
    (a : ActivityLog) : (markUpd id st dopt now a).id = a.id := by
  unfold markUpd
  split <;> rfl

theorem markUpd_of_ne {id : Nat} {st : Status} {dopt : Option Details} {now : Nat}
    {a : ActivityLog} (h : ¬ a.id = id) : markUpd id st dopt now a = a := by
  unfold markUpd
  rw [if_neg h]

theorem idmap_map_markUpd (l : List ActivityLog) (id : Nat) (st : Status)
    (dopt : Option Details) (now : Nat) :
    (l.map (markUpd id st dopt now)).map (fun a => a.id) = l.map (fun a => a.id) := by
  rw [List.map_map]
  exact List.map_congr_left (fun a _ => markUpd_id id st dopt now a)

theorem mark_eq {db : DB} {id : Nat} {st : Status} {dopt : Option Details} {now : Nat}
    (h : db.markFails.contains id = false) :
    markActivityLogAsExecuted db id st dopt now =
      Except.ok (((db.activityLogs.map (markUpd id st dopt now)).filter
                    (fun a => decide (a.id = id))).head?,
                 { db with activityLogs := db.activityLogs.map (markUpd id st dopt now) }) := by
  unfold markActivityLogAsExecuted
  simp only [h]
  rfl

theorem find?_map_markUpd {l : List ActivityLog} {id : Nat} {st : Status}
    {dopt : Option Details} {now : Nat}
    (hn : (l.map (fun a => a.id)).Nodup)
    {entry : ActivityLog} (hmem : entry ∈ l) (heid : entry.id = id) :
    (l.map (markUpd id st dopt now)).find? (fun a => decide (a.id = id))
      = some (markUpd id st dopt now entry) := by
  rw [List.find?_map]
  have hp : ((fun a : ActivityLog => decide (a.id = id)) ∘ markUpd id st dopt now)
      = fun a : ActivityLog => decide (a.id = id) := by
    funext a
    simp [Function.comp, markUpd_id]
  rw [hp]
  subst heid
  rw [find?_id_of_mem hn hmem]
  rfl

theorem mark_post {db : DB} {id : Nat} {st : Status} {d : Details} {now : Nat}
    (hfail : db.markFails.contains id = false)
    (hn : (db.activityLogs.map (fun a => a.id)).Nodup)
    {entry : ActivityLog} (hmem : entry ∈ db.activityLogs) (heid : entry.id = id) :
    ∃ r db1, markActivityLogAsExecuted db id st (some d) now = Except.ok (r, db1) ∧
      db1 = { db with activityLogs := db.activityLogs.map (markUpd id st (some d) now) } ∧
      logById db1 id = some { entry with
                              status := st
                              executedAt := some now
                              executionDuration := some 0
                              details := d } ∧
      db1.activityLogs.map (fun a => a.id) = db.activityLogs.map (fun a => a.id) ∧
      db1.rules = db.rules ∧ db1.markFails = db.markFails ∧
      (∀ a ∈ db.activityLogs, ¬ a.id = id → a ∈ db1.activityLogs) := by
  refine ⟨_, _, mark_eq hfail, rfl, ?_, ?_, rfl, rfl, ?_⟩
  · unfold logById
    show (db.activityLogs.map (markUpd id st (some d) now)).find?
        (fun a => decide (a.id = id)) = _
    rw [find?_map_markUpd hn hmem heid]
    unfold markUpd
    rw [if_pos heid]
    rfl
  · exact idmap_map_markUpd db.activityLogs id st (some d) now
  · intro a hmem2 hne
    have h2 : markUpd id st (some d) now a ∈ db.activityLogs.map (markUpd id st (some d) now) :=
      List.mem_map_of_mem _ hmem2
    rwa [markUpd_of_ne hne] at h2



theorem markResult_frame {db : DB} {id : Nat} {st : Status} {dopt : Option Details}
    {now : Nat} {r : Option ActivityLog} {db1 : DB}
    (h : markActivityLogAsExecuted db id st dopt now = Except.ok (r, db1)) :
    db1.activityLogs.map (fun a => a.id) = db.activityLogs.map (fun a => a.id) ∧
    db1.markFails = db.markFails ∧ db1.rules = db.rules ∧
    (∀ a ∈ db.activityLogs, ¬ a.id = id → a ∈ db1.activityLogs) := by
  unfold markActivityLogAsExecuted at h
  by_cases hc : db.markFails.contains id
  · rw [if_pos hc] at h
    cases h
  · rw [if_neg hc] at h
    injection h with h2
    have hdb : db1 = { db with activityLogs := db.activityLogs.map (markUpd id st dopt now) } :=
      (congrArg Prod.snd h2).symm
    subst hdb
    refine ⟨idmap_map_markUpd db.activityLogs id st dopt now, rfl, rfl, ?_⟩
    intro a hmem hne
    have h3 : markUpd id st dopt now a ∈ db.activityLogs.map (markUpd id st dopt now) :=
      List.mem_map_of_mem _ hmem
    rwa [markUpd_of_ne hne] at h3

theorem executeAction_not_scheduled {db : DB} {t i : Nat} {exec : ExecOutcome}
    (h : ∀ x ∈ db.activityLogs, x.status = Status.scheduled → ¬ x.id = i) :
    executeAction db t i exec = Except.ok (db, t) := by
  have hfind := find?_sched_eq_none h
  unfold executeAction executeActionBody
  simp only [hfind]


theorem executeActionBody_frame (db : DB) (t j : Nat) (exec : ExecOutcome) :
    (loopDB (executeActionBody db t j exec)).activityLogs.map (fun a => a.id)
        = db.activityLogs.map (fun a => a.id) ∧
    (loopDB (executeActionBody db t j exec)).markFails = db.markFails ∧
    (∀ a ∈ db.activityLogs, ¬ a.id = j →
        a ∈ (loopDB (executeActionBody db t j exec)).activityLogs) := by
  cases hfind : (getActivityLogsByStatus db Status.scheduled).find?
      (fun l => decide (l.id = j)) with
  | none =>
      unfold executeActionBody
      simp only [hfind, loopDB]
      exact ⟨by simp, by simp, fun a hmem _ => hmem⟩
  | some al =>
      cases hrule : getRuleById db al.ruleId with
      | none =>
          cases hm : markActivityLogAsExecuted db j Status.failed
              (some [("error", JVal.s "Rule not found"), ("status", JVal.s "canceled")]) t with
          | ok p =>
              obtain ⟨r, db1⟩ := p
              have hf := markResult_frame hm
              unfold executeActionBody
              simp only [hfind, hrule, hm, loopDB]
              exact ⟨hf.1, hf.2.1, hf.2.2.2⟩
          | error e =>
              unfold executeActionBody
              simp only [hfind, hrule, hm, loopDB]
              exact ⟨by simp, by simp, fun a hmem _ => hmem⟩
      | some rule =>
          cases hact : rule.isActive with
          | false =>
              cases hm : markActivityLogAsExecuted db j Status.failed
                  (some [("error", JVal.s "Rule is inactive"), ("status", JVal.s "canceled")]) t with
              | ok p =>
                  obtain ⟨r, db1⟩ := p
                  have hf := markResult_frame hm
                  unfold executeActionBody
                  simp only [hfind, hrule, hact, hm, loopDB]
                  exact ⟨hf.1, hf.2.1, hf.2.2.2⟩
              | error e =>
                  unfold executeActionBody
                  simp only [hfind, hrule, hact, hm, loopDB]
                  exact ⟨by simp, by simp, fun a hmem _ => hmem⟩
          | true =>
              cases haction : getActionById db rule.actionId with
              | none =>
                  cases hm : markActivityLogAsExecuted db j Status.failed
                      (some [("error", JVal.s "Action not found")]) t with
                  | ok p =>
                      obtain ⟨r, db1⟩ := p
                      have hf := markResult_frame hm
                      unfold executeActionBody
                      simp only [hfind, hrule, hact, haction, hm, loopDB]
                      exact ⟨hf.1, hf.2.1, hf.2.2.2⟩
                  | error e =>
                      unfold executeActionBody
                      simp only [hfind, hrule, hact, haction, hm, loopDB]
                      exact ⟨by simp, by simp, fun a hmem _ => hmem⟩
              | some action =>
                  cases hm : markActivityLogAsExecuted
                      (updateRuleLastTriggered db rule.id (t + exec.dt)).2 j
                      (if exec.success then Status.success else Status.failed)
                      (some (detailsInsert al.details "execution" exec.result))
                      (t + exec.dt) with
                  | ok p =>
                      obtain ⟨r, db1⟩ := p
                      have hf := markResult_frame hm
                      unfold executeActionBody
                      simp only [hfind, hrule, hact, haction, hm, loopDB]
                      exact ⟨hf.1, hf.2.1, hf.2.2.2⟩
                  | error e =>
                      unfold executeActionBody
                      simp only [hfind, hrule, hact, haction, hm, loopDB]
                      exact ⟨by simp [updateRuleLastTriggered], by simp [updateRuleLastTriggered],
                             fun a hmem _ => hmem⟩

theorem executeAction_frame (db : DB) (t j : Nat) (exec : ExecOutcome) :
    (loopDB (executeAction db t j exec)).activityLogs.map (fun a => a.id)
        = db.activityLogs.map (fun a => a.id) ∧
    (loopDB (executeAction db t j exec)).markFails = db.markFails ∧
    (∀ a ∈ db.activityLogs, ¬ a.id = j →
        a ∈ (loopDB (executeAction db t j exec)).activityLogs) := by
  have hb := executeActionBody_frame db t j exec
  cases hbody : executeActionBody db t j exec with
  | ok r =>
      obtain ⟨db1, t1⟩ := r
      rw [hbody] at hb
      simp only [loopDB] at hb
      unfold executeAction
      simp only [hbody, loopDB]
      exact hb
  | error e =>
      obtain ⟨msg, db1, t1⟩ := e
      rw [hbody] at hb
      simp only [loopDB] at hb
      cases hm : markActivityLogAsExecuted db1 j Status.failed
          (some [("error", JVal.s msg)]) t1 with
      | ok p =>
          obtain ⟨r2, db2⟩ := p
          have hf := markResult_frame hm
          unfold executeAction
          simp only [hbody, hm, loopDB]
          refine ⟨hf.1.trans hb.1, hf.2.1.trans hb.2.1, ?_⟩
          intro a hmem hne
          exact hf.2.2.2 a (hb.2.2 a hmem hne) hne
      | error e2 =>
          unfold executeAction
          simp only [hbody, hm, loopDB]
          exact hb


theorem executeAction_found {db : DB} {t : Nat} {exec : ExecOutcome} {entry : ActivityLog}
    (hn : (db.activityLogs.map (fun a => a.id)).Nodup)
    (hmem : entry ∈ db.activityLogs) (hst : entry.status = Status.scheduled)
    (hfail : db.markFails.contains entry.id = false) :
    ∃ db1 t1, executeAction db t entry.id exec = Except.ok (db1, t1) ∧
      db1.activityLogs.map (fun a => a.id) = db.activityLogs.map (fun a => a.id) ∧
      db1.markFails = db.markFails ∧
      (∃ b, logById db1 entry.id = some b ∧ b.id = entry.id ∧ b.status ≠ Status.scheduled) ∧
      (∀ a ∈ db.activityLogs, ¬ a.id = entry.id → a ∈ db1.activityLogs) := by
  have hfind := find?_sched_eq_some hn hmem hst
  cases hrule : getRuleById db entry.ruleId with
  | none =>
      obtain ⟨r, db1, hmark, hdb1, hlog, hids, hrules, hmf, hpres⟩ :=
        @mark_post db entry.id Status.failed
          [("error", JVal.s "Rule not found"), ("status", JVal.s "canceled")]
          t hfail hn entry hmem rfl
      refine ⟨db1, t, ?_, hids, hmf, ⟨_, hlog, rfl, by simp⟩, hpres⟩
      unfold executeAction executeActionBody
      simp only [hfind, hrule, hmark]
  | some rule =>
      cases hact : rule.isActive with
      | false =>
          obtain ⟨r, db1, hmark, hdb1, hlog, hids, hrules, hmf, hpres⟩ :=
            @mark_post db entry.id Status.failed
              [("error", JVal.s "Rule is inactive"), ("status", JVal.s "canceled")]
              t hfail hn entry hmem rfl
          refine ⟨db1, t, ?_, hids, hmf, ⟨_, hlog, rfl, by simp⟩, hpres⟩
          unfold executeAction executeActionBody
          simp [hfind, hrule, hact, hmark]
      | true =>
          cases haction : getActionById db rule.actionId with
          | none =>
              obtain ⟨r, db1, hmark, hdb1, hlog, hids, hrules, hmf, hpres⟩ :=
                @mark_post db entry.id Status.failed
                  [("error", JVal.s "Action not found")]
                  t hfail hn entry hmem rfl
              refine ⟨db1, t, ?_, hids, hmf, ⟨_, hlog, rfl, by simp⟩, hpres⟩
              unfold executeAction executeActionBody
              simp [hfind, hrule, hact, haction, hmark]
          | some action =>
              obtain ⟨r, db1, hmark, hdb1, hlog, hids, hrules, hmf, hpres⟩ :=
                @mark_post (updateRuleLastTriggered db rule.id (t + exec.dt)).2 entry.id
                  (if exec.success then Status.success else Status.failed)
                  (detailsInsert entry.details "execution" exec.result)
                  (t + exec.dt) hfail hn entry hmem rfl
              refine ⟨db1, t + exec.dt, ?_, hids, hmf,
                ⟨_, hlog, rfl, by cases exec.success <;> simp⟩, hpres⟩
              unfold executeAction executeActionBody
              simp [hfind, hrule, hact, haction, hmark]



theorem processLoop_cons (oracle : Nat → ExecOutcome) (db : DB) (t i : Nat) (rest : List Nat) :
    processLoop oracle db t (i :: rest) =
      match executeAction db t i (oracle i) with
      | Except.ok (db1, t1) => processLoop oracle db1 t1 rest
      | Except.error e => Except.error e := rfl

theorem processLoop_frame (oracle : Nat → ExecOutcome) (ids : List Nat) :
    ∀ (db : DB) (t : Nat),
      (loopDB (processLoop oracle db t ids)).activityLogs.map (fun a => a.id)
          = db.activityLogs.map (fun a => a.id) ∧
      (loopDB (processLoop oracle db t ids)).markFails = db.markFails ∧
      (∀ a ∈ db.activityLogs, (∀ j ∈ ids, ¬ a.id = j) →
          a ∈ (loopDB (processLoop oracle db t ids)).activityLogs) := by
  induction ids with
  | nil =>
      intro db t
      exact ⟨rfl, rfl, fun a hmem _ => hmem⟩
  | cons i rest ih =>
      intro db t
      have hf := executeAction_frame db t i (oracle i)
      cases hex : executeAction db t i (oracle i) with
      | ok r =>
          obtain ⟨db1, t1⟩ := r
          rw [hex] at hf
          simp only [loopDB] at hf
          have hrest := ih db1 t1
          unfold processLoop
          simp only [hex]
          refine ⟨hrest.1.trans hf.1, hrest.2.1.trans hf.2.1, ?_⟩
          intro a hmem hids
          exact hrest.2.2 a (hf.2.2 a hmem (hids i (List.mem_cons_self i rest)))
            (fun j hj => hids j (List.mem_cons_of_mem i hj))
      | error e =>
          obtain ⟨msg, db1, t1⟩ := e
          rw [hex] at hf
          simp only [loopDB] at hf
          unfold processLoop
          simp only [hex, loopDB]
          refine ⟨hf.1, hf.2.1, ?_⟩
          intro a hmem hids
          exact hf.2.2 a hmem (hids i (List.mem_cons_self i rest))

theorem processLoop_marks (oracle : Nat → ExecOutcome) (ids : List Nat) :
    ∀ (db : DB) (t : Nat),
      (db.activityLogs.map (fun a => a.id)).Nodup →
      ids.Nodup →
      (∀ j ∈ ids, db.markFails.contains j = false) →
      (∀ j ∈ ids, ∃ a ∈ db.activityLogs, a.id = j ∧ a.status = Status.scheduled) →
      ∃ db1 t1, processLoop oracle db t ids = Except.ok (db1, t1) ∧
        db1.activityLogs.map (fun a => a.id) = db.activityLogs.map (fun a => a.id) ∧
        db1.markFails = db.markFails ∧
        (∀ j ∈ ids, ∃ b, logById db1 j = some b ∧ b.status ≠ Status.scheduled) ∧
        (∀ a ∈ db.activityLogs, (∀ j ∈ ids, ¬ a.id = j) → a ∈ db1.activityLogs) := by
  induction ids with
  | nil =>
      intro db t _ _ _ _
      exact ⟨db, t, rfl, rfl, rfl, by simp, fun a hmem _ => hmem⟩
  | cons i rest ih =>
      intro db t hn hnodup hfail hsched
      obtain ⟨entry, hemem, heid, hest⟩ := hsched i (List.mem_cons_self i rest)
      subst heid
      rw [List.nodup_cons] at hnodup
      obtain ⟨db1, t1, hex, hids1, hmf1, ⟨b, hlogb, hbid, hbst⟩, hpres1⟩ :=
        @executeAction_found db t (oracle entry.id) entry hn hemem hest
          (hfail entry.id (List.mem_cons_self _ rest))
      have hn1 : (db1.activityLogs.map (fun a => a.id)).Nodup := by
        rw [hids1]; exact hn
      have hfail1 : ∀ j ∈ rest, db1.markFails.contains j = false := by
        intro j hj
        rw [hmf1]
        exact hfail j (List.mem_cons_of_mem _ hj)
      have hsched1 : ∀ j ∈ rest, ∃ a ∈ db1.activityLogs, a.id = j ∧ a.status = Status.scheduled := by
        intro j hj
        obtain ⟨a, hamem, haid, hast⟩ := hsched j (List.mem_cons_of_mem _ hj)
        have hne : ¬ a.id = entry.id := by
          rw [haid]
          intro hcontra
          exact hnodup.1 (hcontra ▸ hj)
        exact ⟨a, hpres1 a hamem hne, haid, hast⟩
      obtain ⟨dbF, tF, hloop, hidsF, hmfF, hmarksF, hpresF⟩ :=
        ih db1 t1 hn1 hnodup.2 hfail1 hsched1
      refine ⟨dbF, tF, ?_, hidsF.trans hids1, hmfF.trans hmf1, ?_, ?_⟩
      · rw [processLoop_cons, hex]
        exact hloop
      · intro j hj
        rcases List.mem_cons.mp hj with rfl | hjr
        · unfold logById at hlogb
          have hbmem1 : b ∈ db1.activityLogs := List.mem_of_find?_eq_some hlogb
          have hbmemF : b ∈ dbF.activityLogs := by
            refine hpresF b hbmem1 ?_
            intro j2 hj2
            rw [hbid]
            intro hcontra
            exact hnodup.1 (hcontra ▸ hj2)
          have hnF : (dbF.activityLogs.map (fun a => a.id)).Nodup := by
            rw [hidsF, hids1]; exact hn
          have hfind2 := find?_id_of_mem hnF hbmemF
          rw [hbid] at hfind2
          exact ⟨b, hfind2, hbst⟩
        · exact hmarksF j hjr
      · intro a hmem hall
        have hne := hall entry.id (List.mem_cons_self _ rest)
        exact hpresF a (hpres1 a hmem hne) (fun j hj => hall j (List.mem_cons_of_mem _ hj))



theorem processScheduledActionsBody_eq (oracle : Nat → ExecOutcome) (db : DB) (t : Nat) :
    processScheduledActionsBody oracle db t
      = processLoop oracle db t ((getPendingScheduledActions db t).map (fun a => a.id)) := rfl

theorem processScheduledActions_fst (oracle : Nat → ExecOutcome) (db : DB) (t : Nat) :
    (processScheduledActions oracle db t).1
      = loopDB (processScheduledActionsBody oracle db t) := by
  unfold processScheduledActions
  cases h : processScheduledActionsBody oracle db t with
  | ok r =>
      obtain ⟨db1, t1⟩ := r
      rfl
  | error e =>
      obtain ⟨msg, db1, t1⟩ := e
      rfl

theorem getRuleById_some_id {db : DB} {i : Nat} {rule : Rule}
    (h : getRuleById db i = some rule) : rule.id = i := by
  unfold getRuleById at h
  have hmem : rule ∈ db.rules.filter (fun r => decide (r.id = i)) :=
    List.mem_of_mem_head? (Option.mem_def.mpr h)
  simpa using (List.mem_filter.mp hmem).2

theorem ruleUpd_id (id now : Nat) (r : Rule) : (ruleUpd id now r).id = r.id := by
  unfold ruleUpd
  split <;> rfl

theorem getRuleById_updateRuleLastTriggered {db : DB} {i now : Nat} {rule : Rule}
    (h : getRuleById db i = some rule) :
    getRuleById (updateRuleLastTriggered db i now).2 i
      = some { rule with lastTriggered := some now } := by
  have hid := getRuleById_some_id h
  unfold getRuleById at h
  unfold getRuleById updateRuleLastTriggered
  show ((db.rules.map (ruleUpd i now)).filter (fun r => decide (r.id = i))).head? = _
  have hp : ((fun r : Rule => decide (r.id = i)) ∘ ruleUpd i now)
      = fun r : Rule => decide (r.id = i) := by
    funext r
    simp [Function.comp, ruleUpd_id]
  rw [List.filter_map, hp, List.head?_map, h]
  show some (ruleUpd i now rule) = _
  unfold ruleUpd
  rw [if_pos hid]



/-- Sample rule (active, action present) used by concrete witnesses. -/
def ruleW : Rule :=
  { id := 1, name := "Guest Check-in Notification", actionId := 1,
    actionDetails := [("recipient", JVal.s "guest@example.com")],
    isActive := true, lastTriggered := none }

/-- Sample inactive rule used by concrete witnesses. -/
def ruleInactiveW : Rule :=
  { id := 2, name := "Cleaning Reminder", actionId := 1, actionDetails := [],
    isActive := false, lastTriggered := none }

/-- Sample rule whose action id matches no action row. -/
def ruleNoActionW : Rule :=
  { id := 3, name := "Maintenance Alert", actionId := 99, actionDetails := [],
    isActive := true, lastTriggered := none }

/-- Sample action row used by concrete witnesses. -/
def actionW : Action := { id := 1, name := "Send email" }

/-- Sample successful executor outcome taking 500 ms. -/
def execOkW : ExecOutcome := { success := true, result := JVal.b true, dt := 500 }

/-- Sample failed executor outcome taking 500 ms. -/
def execFailW : ExecOutcome := { success := false, result := JVal.b false, dt := 500 }

/-- An empty store used by concrete witnesses. -/
def dbEmptyW : DB :=
  { rules := [], actions := [], activityLogs := [], nextLogId := 1, markFails := [] }

/-- C2: for every rule id, delay in minutes and details payload,
`scheduleAction` creates and returns an activity-log entry with status
`scheduled`, `triggeredAt = now` and
`scheduleTime = now + delayMinutes * 60 * 1000` milliseconds exactly (no
rounding or slack), appending it to the store. -/
theorem C2_schedule_exact (db : DB) (now ruleId delayMinutes : Nat) (details : Details) :
    ((scheduleAction db now ruleId delayMinutes details).1.status = Status.scheduled) ∧
    ((scheduleAction db now ruleId delayMinutes details).1.triggeredAt = now) ∧
    ((scheduleAction db now ruleId delayMinutes details).1.scheduleTime
        = some (now + delayMinutes * 60 * 1000)) ∧
    ((scheduleAction db now ruleId delayMinutes details).1.ruleId = ruleId) ∧
    ((scheduleAction db now ruleId delayMinutes details).1.details = details) ∧
    ((scheduleAction db now ruleId delayMinutes details).2.activityLogs
        = db.activityLogs ++ [(scheduleAction db now ruleId delayMinutes details).1]) :=
  ⟨rfl, rfl, rfl, rfl, rfl, rfl⟩

/-- C2 witness: `scheduleAction` at a concrete input. -/
theorem C2_schedule_exact_witness :
    (scheduleAction dbEmptyW 1000 7 3 []).1.scheduleTime = some (1000 + 3 * 60 * 1000) :=
  (C2_schedule_exact dbEmptyW 1000 7 3 []).2.2.1

/-- C5: `getPendingScheduledActions` returns exactly the activity-log
entries whose status is `scheduled` and whose `scheduleTime` is non-null
and at most `now`; in particular an entry whose `scheduleTime` is
strictly in the future is never returned (the operation is read-only, so
this holds for every poll before the due time). -/
theorem C5_pending_characterization (db : DB) (now : Nat) :
    (getPendingScheduledActions db now
        = db.activityLogs.filter
            (fun a => isDue now a && decide (a.status = Status.scheduled))) ∧
    (∀ a, a ∈ getPendingScheduledActions db now ↔
        a ∈ db.activityLogs ∧ a.status = Status.scheduled ∧
          ∃ t0, a.scheduleTime = some t0 ∧ t0 ≤ now) := by
  constructor
  · simp only [getPendingScheduledActions]
    exact List.filter_filter _ _
  · intro a
    simp only [getPendingScheduledActions]
    rw [List.mem_filter, List.mem_filter]
    constructor
    · rintro ⟨⟨hmem, hst⟩, hdue⟩
      refine ⟨hmem, by simpa using hst, ?_⟩
      unfold isDue at hdue
      cases hsch : a.scheduleTime with
      | none => rw [hsch] at hdue; cases hdue
      | some t0 =>
          rw [hsch] at hdue
          exact ⟨t0, rfl, by simpa using hdue⟩
    · rintro ⟨hmem, hst, t0, hsch, hle⟩
      refine ⟨⟨hmem, by simpa using hst⟩, ?_⟩
      unfold isDue
      rw [hsch]
      simpa using hle

/-- C5 witness: the membership characterization at a concrete store. -/
theorem C5_pending_characterization_witness :
    ({ id := 1, ruleId := 1, triggeredAt := 0, status := Status.scheduled, details := [],
       scheduleTime := some 900, executedAt := none,
       executionDuration := none } : ActivityLog) ∉
      getPendingScheduledActions
        { rules := [], actions := [],
          activityLogs := [{ id := 1, ruleId := 1, triggeredAt := 0,
                             status := Status.scheduled, details := [],
                             scheduleTime := some 900, executedAt := none,
                             executionDuration := none }],
          nextLogId := 2, markFails := [] } 100 := by
  intro hmem
  have h := ((C5_pending_characterization _ 100).2 _).mp hmem
  obtain ⟨_, _, t0, hsch, hle⟩ := h
  cases hsch
  omega

/-- C10: `scheduleAction` performs no validation of the rule: its result
does not depend on the `rules` or `actions` tables at all, it never
throws (it is a total function in the embedding), and it creates a
status-`scheduled` entry for every rule id, existing or not, active or
not. -/
theorem C10_no_validation (db : DB) (now ruleId delayMinutes : Nat) (details : Details)
    (rules2 : List Rule) (actions2 : List Action) :
    ((scheduleAction db now ruleId delayMinutes details).1.status = Status.scheduled) ∧
    ((scheduleAction db now ruleId delayMinutes details).2.rules = db.rules) ∧
    ((scheduleAction db now ruleId delayMinutes details).2.actions = db.actions) ∧
    ((scheduleAction { db with rules := rules2, actions := actions2 }
          now ruleId delayMinutes details).1
        = (scheduleAction db now ruleId delayMinutes details).1) ∧
    ((scheduleAction { db with rules := rules2, actions := actions2 }
          now ruleId delayMinutes details).2.activityLogs
        = (scheduleAction db now ruleId delayMinutes details).2.activityLogs) :=
  ⟨rfl, rfl, rfl, rfl, rfl⟩

/-- C10 witness: scheduling against an id with no rule behaves exactly as
with any rule table. -/
theorem C10_no_validation_witness :
    (scheduleAction { dbEmptyW with rules := [ruleInactiveW], actions := [actionW] }
        50 42 1 []).1
      = (scheduleAction dbEmptyW 50 42 1 []).1 :=
  (C10_no_validation dbEmptyW 50 42 1 [] [ruleInactiveW] [actionW]).2.2.2.1



/-- C3: `triggerImmediateAction` throws a not-found error when the rule
does not exist, an inactive error when the rule exists but is not
active, and a not-found error when the rule points at a missing action;
in each case the error value carries the store state at the throw point,
which is the unmodified input store (no activity-log entry is created,
no table is mutated). -/
theorem C3_immediate_errors (db : DB) (t ruleId : Nat) (exec : ExecOutcome) :
    (getRuleById db ruleId = none →
      triggerImmediateAction db t ruleId exec =
        Except.error ("Rule with ID " ++ toString ruleId ++ " not found", db, t)) ∧
    (∀ rule, getRuleById db ruleId = some rule → rule.isActive = false →
      triggerImmediateAction db t ruleId exec =
        Except.error ("Rule with ID " ++ toString ruleId ++ " is inactive", db, t)) ∧
    (∀ rule, getRuleById db ruleId = some rule → rule.isActive = true →
      getActionById db rule.actionId = none →
      triggerImmediateAction db t ruleId exec =
        Except.error ("Action with ID " ++ toString rule.actionId ++ " not found", db, t)) := by
  refine ⟨?_, ?_, ?_⟩
  · intro h
    unfold triggerImmediateAction
    simp [h]
  · intro rule h hact
    unfold triggerImmediateAction
    simp [h, hact]
  · intro rule h hact haction
    unfold triggerImmediateAction
    simp [h, hact, haction]

/-- A store for the C3 witness: an inactive rule with id 2, an active
rule with id 3 whose action id 99 matches no action, and no rule with
id 1. -/
def dbC3W : DB :=
  { rules := [ruleInactiveW, ruleNoActionW], actions := [actionW],
    activityLogs := [], nextLogId := 1, markFails := [] }

/-- C3 witness: all three error paths at concrete inputs, with the store
returned untouched. -/
theorem C3_immediate_errors_witness :
    (triggerImmediateAction dbC3W 5 1 execOkW =
      Except.error ("Rule with ID " ++ toString 1 ++ " not found", dbC3W, 5)) ∧
    (triggerImmediateAction dbC3W 5 2 execOkW =
      Except.error ("Rule with ID " ++ toString 2 ++ " is inactive", dbC3W, 5)) ∧
    (triggerImmediateAction dbC3W 5 3 execOkW =
      Except.error ("Action with ID " ++ toString 99 ++ " not found", dbC3W, 5)) :=
  ⟨(C3_immediate_errors dbC3W 5 1 execOkW).1 (by decide),
   (C3_immediate_errors dbC3W 5 2 execOkW).2.1 ruleInactiveW (by decide) (by decide),
   (C3_immediate_errors dbC3W 5 3 execOkW).2.2 ruleNoActionW (by decide) (by decide) (by decide)⟩

/-- A store for the C8 run: one active rule with an existing action and
no activity logs. -/
def dbC8 : DB :=
  { rules := [ruleW], actions := [actionW], activityLogs := [],
    nextLogId := 1, markFails := [] }

/-- C8: on the successful path of `triggerImmediateAction` the created
entry has `triggeredAt = executedAt` and a terminal status from the
executor outcome — but `executionDuration` is `0` and NOT the elapsed
time of the executor call: the source reads `executionStart` and
`executionEnd` both after `mockExecuteAction` returned.  Here the
executor consumes 500 ms (the run ends at 1500 after starting at 1000),
yet the recorded duration is `0`. -/
theorem C8_duration_zero :
    (triggerImmediateAction dbC8 1000 1 execOkW).toOption.map
        (fun r => (r.1.status, r.1.triggeredAt, r.1.executedAt, r.1.executionDuration, r.2.2))
      = some (Status.success, 1500, some 1500, some 0, 1500) ∧
    execOkW.dt = 500 := by
  constructor
  · rfl
  · rfl



/-- C1: single-shot execution.  Once an activity-log entry has left
status `scheduled`, (1) it is never returned by
`getPendingScheduledActions` again, (2) `executeAction` invoked with its
id finds it absent from the status-`scheduled` list and performs no
mutation at all, and (3) a subsequent full poll cycle
(`processScheduledActions`) leaves the entry unchanged in the store. -/
theorem C1_single_shot {db : DB} {now t : Nat} {oracle : Nat → ExecOutcome}
    {exec : ExecOutcome} {entry : ActivityLog}
    (hn : (db.activityLogs.map (fun a => a.id)).Nodup)
    (hmem : entry ∈ db.activityLogs)
    (hst : entry.status ≠ Status.scheduled) :
    entry ∉ getPendingScheduledActions db now ∧
    executeAction db t entry.id exec = Except.ok (db, t) ∧
    entry ∈ (processScheduledActions oracle db t).1.activityLogs ∧
    logById (processScheduledActions oracle db t).1 entry.id = some entry := by
  have hnot : ∀ x ∈ db.activityLogs, x.status = Status.scheduled → ¬ x.id = entry.id := by
    intro x hx hxs hxid
    have hxe : x = entry := eq_of_mem_idNodup hn hx hmem hxid
    rw [hxe] at hxs
    exact hst hxs
  have h1 : entry ∉ getPendingScheduledActions db now := by
    intro hpm
    simp only [getPendingScheduledActions] at hpm
    have h2 := List.mem_filter.mp (List.mem_filter.mp hpm).1
    have hsched : entry.status = Status.scheduled := by simpa using h2.2
    exact hst hsched
  have hpids : ∀ j ∈ (getPendingScheduledActions db t).map (fun a => a.id),
      ¬ entry.id = j := by
    intro j hj hje
    obtain ⟨a, hap, haid⟩ := List.mem_map.mp hj
    simp only [getPendingScheduledActions] at hap
    have ha2 := List.mem_filter.mp (List.mem_filter.mp hap).1
    have hasched : a.status = Status.scheduled := by simpa using ha2.2
    exact hnot a ha2.1 hasched (by rw [haid, ← hje])
  have hframe := processLoop_frame oracle
    ((getPendingScheduledActions db t).map (fun a => a.id)) db t
  have hfst := processScheduledActions_fst oracle db t
  rw [processScheduledActionsBody_eq] at hfst
  have h3 : entry ∈ (processScheduledActions oracle db t).1.activityLogs := by
    rw [hfst]
    exact hframe.2.2 entry hmem hpids
  refine ⟨h1, executeAction_not_scheduled hnot, h3, ?_⟩
  have hnf : ((processScheduledActions oracle db t).1.activityLogs.map
      (fun a => a.id)).Nodup := by
    rw [hfst, hframe.1]
    exact hn
  exact find?_id_of_mem hnf h3

/-- A terminal (already executed) entry for the C1 witness. -/
def logDoneC1 : ActivityLog :=
  { id := 1, ruleId := 1, triggeredAt := 10, status := Status.success,
    details := [("execution", JVal.b true)], scheduleTime := some 20,
    executedAt := some 20, executionDuration := some 0 }

/-- A still-pending due entry accompanying `logDoneC1`. -/
def logPendingC1 : ActivityLog :=
  { id := 2, ruleId := 1, triggeredAt := 15, status := Status.scheduled,
    details := [], scheduleTime := some 30, executedAt := none,
    executionDuration := none }

/-- The store for the C1 witness: one executed entry and one due entry. -/
def dbC1 : DB :=
  { rules := [ruleW], actions := [actionW],
    activityLogs := [logDoneC1, logPendingC1], nextLogId := 3, markFails := [] }

/-- C1 witness: the executed entry of `dbC1` is skipped by the poll
query, untouched by `executeAction` on its id, and unchanged after a
full poll cycle that does process the other (due) entry. -/
theorem C1_single_shot_witness :
    logDoneC1 ∉ getPendingScheduledActions dbC1 100 ∧
    executeAction dbC1 100 1 execOkW = Except.ok (dbC1, 100) ∧
    logById (processScheduledActions (fun _ => execOkW) dbC1 100).1 1 = some logDoneC1 := by
  have h := @C1_single_shot dbC1 100 100 (fun _ => execOkW) execOkW logDoneC1
    (by decide) (by decide) (by decide)
  exact ⟨h.1, h.2.1, h.2.2.2⟩



/-- C4: when the scheduler processes a due `scheduled` entry whose rule
is missing, whose rule is inactive, or whose action is missing, the
entry is marked `failed` with the matching error string in its details
(`Rule not found`, `Rule is inactive`, `Action not found`); status
`failed` in particular means the entry is not left `scheduled`. -/
theorem C4_due_entry_failure_marking {db : DB} {t : Nat} {exec : ExecOutcome}
    {entry : ActivityLog}
    (hn : (db.activityLogs.map (fun a => a.id)).Nodup)
    (hmem : entry ∈ db.activityLogs)
    (hst : entry.status = Status.scheduled)
    (hfail : db.markFails.contains entry.id = false) :
    (getRuleById db entry.ruleId = none →
      ∃ db1, executeAction db t entry.id exec = Except.ok (db1, t) ∧
        (logById db1 entry.id).map (fun b => (b.status, detailsGet b.details "error"))
          = some (Status.failed, some (JVal.s "Rule not found"))) ∧
    (∀ rule, getRuleById db entry.ruleId = some rule → rule.isActive = false →
      ∃ db1, executeAction db t entry.id exec = Except.ok (db1, t) ∧
        (logById db1 entry.id).map (fun b => (b.status, detailsGet b.details "error"))
          = some (Status.failed, some (JVal.s "Rule is inactive"))) ∧
    (∀ rule, getRuleById db entry.ruleId = some rule → rule.isActive = true →
      getActionById db rule.actionId = none →
      ∃ db1, executeAction db t entry.id exec = Except.ok (db1, t) ∧
        (logById db1 entry.id).map (fun b => (b.status, detailsGet b.details "error"))
          = some (Status.failed, some (JVal.s "Action not found"))) := by
  have hfind := find?_sched_eq_some hn hmem hst
  refine ⟨?_, ?_, ?_⟩
  · intro hrule
    obtain ⟨r, db1, hmark, hdb1, hlog, hids, hrules, hmf, hpres⟩ :=
      @mark_post db entry.id Status.failed
        [("error", JVal.s "Rule not found"), ("status", JVal.s "canceled")]
        t hfail hn entry hmem rfl
    refine ⟨db1, ?_, ?_⟩
    · unfold executeAction executeActionBody
      simp [hfind, hrule, hmark]
    · rw [hlog]
      rfl
  · intro rule hrule hact
    obtain ⟨r, db1, hmark, hdb1, hlog, hids, hrules, hmf, hpres⟩ :=
      @mark_post db entry.id Status.failed
        [("error", JVal.s "Rule is inactive"), ("status", JVal.s "canceled")]
        t hfail hn entry hmem rfl
    refine ⟨db1, ?_, ?_⟩
    · unfold executeAction executeActionBody
      simp [hfind, hrule, hact, hmark]
    · rw [hlog]
      rfl
  · intro rule hrule hact haction
    obtain ⟨r, db1, hmark, hdb1, hlog, hids, hrules, hmf, hpres⟩ :=
      @mark_post db entry.id Status.failed
        [("error", JVal.s "Action not found")]
        t hfail hn entry hmem rfl
    refine ⟨db1, ?_, ?_⟩
    · unfold executeAction executeActionBody
      simp [hfind, hrule, hact, haction, hmark]
    · rw [hlog]
      rfl

/-- A due scheduled entry with id 1 pointing at rule id 9 (no such
rule). -/
def logOrphanC4 : ActivityLog :=
  { id := 1, ruleId := 9, triggeredAt := 10, status := Status.scheduled,
    details := [], scheduleTime := some 20, executedAt := none,
    executionDuration := none }

/-- A due scheduled entry with id 2 pointing at the inactive rule. -/
def logInactiveC4 : ActivityLog :=
  { id := 2, ruleId := 2, triggeredAt := 11, status := Status.scheduled,
    details := [], scheduleTime := some 20, executedAt := none,
    executionDuration := none }

/-- A due scheduled entry with id 3 pointing at the rule whose action is
missing. -/
def logNoActionC4 : ActivityLog :=
  { id := 3, ruleId := 3, triggeredAt := 12, status := Status.scheduled,
    details := [], scheduleTime := some 20, executedAt := none,
    executionDuration := none }

/-- The store for the C4 witness: three due entries hitting the three
failure branches. -/
def dbC4 : DB :=
  { rules := [ruleInactiveW, ruleNoActionW], actions := [actionW],
    activityLogs := [logOrphanC4, logInactiveC4, logNoActionC4],
    nextLogId := 4, markFails := [] }

/-- C4 witness: the three failure branches at concrete inputs. -/
theorem C4_due_entry_failure_marking_witness :
    ((logById (loopDB (executeAction dbC4 100 1 execOkW)) 1).map
        (fun b => (b.status, detailsGet b.details "error"))
      = some (Status.failed, some (JVal.s "Rule not found"))) ∧
    ((logById (loopDB (executeAction dbC4 100 2 execOkW)) 2).map
        (fun b => (b.status, detailsGet b.details "error"))
      = some (Status.failed, some (JVal.s "Rule is inactive"))) ∧
    ((logById (loopDB (executeAction dbC4 100 3 execOkW)) 3).map
        (fun b => (b.status, detailsGet b.details "error"))
      = some (Status.failed, some (JVal.s "Action not found"))) := by
  refine ⟨?_, ?_, ?_⟩
  · obtain ⟨db1, hex, hmap⟩ :=
      (@C4_due_entry_failure_marking dbC4 100 execOkW logOrphanC4
        (by decide) (by decide) (by decide) (by decide)).1 (by decide)
    have hex2 : executeAction dbC4 100 1 execOkW = Except.ok (db1, 100) := hex
    rw [hex2]
    simp only [loopDB]
    exact hmap
  · obtain ⟨db1, hex, hmap⟩ :=
      (@C4_due_entry_failure_marking dbC4 100 execOkW logInactiveC4
        (by decide) (by decide) (by decide) (by decide)).2.1 ruleInactiveW (by decide) (by decide)
    have hex2 : executeAction dbC4 100 2 execOkW = Except.ok (db1, 100) := hex
    rw [hex2]
    simp only [loopDB]
    exact hmap
  · obtain ⟨db1, hex, hmap⟩ :=
      (@C4_due_entry_failure_marking dbC4 100 execOkW logNoActionC4
        (by decide) (by decide) (by decide) (by decide)).2.2 ruleNoActionW
        (by decide) (by decide) (by decide)
    have hex2 : executeAction dbC4 100 3 execOkW = Except.ok (db1, 100) := hex
    rw [hex2]
    simp only [loopDB]
    exact hmap



/-- A due scheduled entry with id 1 (its terminal-status UPDATE will be
made to fail in the C6 counterexample store). -/
def logDueOneC6 : ActivityLog :=
  { id := 1, ruleId := 1, triggeredAt := 10, status := Status.scheduled,
    details := [], scheduleTime := some 20, executedAt := none,
    executionDuration := none }

/-- A second due scheduled entry with id 2. -/
def logDueTwoC6 : ActivityLog :=
  { id := 2, ruleId := 1, triggeredAt := 5, status := Status.scheduled,
    details := [], scheduleTime := some 20, executedAt := none,
    executionDuration := none }

/-- The C6 counterexample store: two due entries, and the
`activity_logs` UPDATE fails (infrastructure error) for id 1. -/
def dbC6 : DB :=
  { rules := [ruleW], actions := [actionW],
    activityLogs := [logDueOneC6, logDueTwoC6], nextLogId := 3,
    markFails := [1] }

/-- The same store with a healthy `activity_logs` UPDATE. -/
def dbC6ok : DB :=
  { rules := [ruleW], actions := [actionW],
    activityLogs := [logDueOneC6, logDueTwoC6], nextLogId := 3,
    markFails := [] }

/-- C6 counterexample: both entries are due in the same pass, but a
store error while recording the outcome of the first entry aborts the pass:
the second entry is returned by the poll query yet is left exactly as it
was, still `scheduled`.  This refutes the claim that an
infrastructure/store error in the processing of one entry never aborts the
remaining entries of the pass. -/
theorem C6_counterexample :
    logDueOneC6 ∈ getPendingScheduledActions dbC6 100 ∧
    logDueTwoC6 ∈ getPendingScheduledActions dbC6 100 ∧
    logById (processScheduledActions (fun _ => execOkW) dbC6 100).1 2 = some logDueTwoC6 ∧
    logDueTwoC6.status = Status.scheduled := by
  refine ⟨by decide, by decide, by decide, rfl⟩

/-- C6 amended: no error propagates out of `processScheduledActions`
(whose catch always returns a state), and when the terminal-status
UPDATE succeeds for every due entry, failures local to individual
entries (rule deleted, rule inactive, action missing, executor-reported
failure) never abort the pass: its body returns without throwing and
every due entry ends the pass in a status other than `scheduled`. -/
theorem C6_amended_isolation {oracle : Nat → ExecOutcome} {db : DB} {t : Nat}
    (hn : (db.activityLogs.map (fun a => a.id)).Nodup)
    (hfail : ∀ a ∈ getPendingScheduledActions db t, db.markFails.contains a.id = false) :
    ∃ db1 t1, processScheduledActionsBody oracle db t = Except.ok (db1, t1) ∧
      processScheduledActions oracle db t = (db1, t1) ∧
      ∀ a ∈ getPendingScheduledActions db t,
        ∃ b, logById db1 a.id = some b ∧ b.status ≠ Status.scheduled := by
  have hsub : ((getPendingScheduledActions db t).map (fun a => a.id)).Nodup := by
    simp only [getPendingScheduledActions]
    exact List.Nodup.sublist
      (List.Sublist.map _ ((List.filter_sublist _).trans (List.filter_sublist _))) hn
  have hfail2 : ∀ j ∈ (getPendingScheduledActions db t).map (fun a => a.id),
      db.markFails.contains j = false := by
    intro j hj
    obtain ⟨a, hap, haid⟩ := List.mem_map.mp hj
    rw [← haid]
    exact hfail a hap
  have hsched2 : ∀ j ∈ (getPendingScheduledActions db t).map (fun a => a.id),
      ∃ a ∈ db.activityLogs, a.id = j ∧ a.status = Status.scheduled := by
    intro j hj
    obtain ⟨a, hap, haid⟩ := List.mem_map.mp hj
    simp only [getPendingScheduledActions] at hap
    have ha2 := List.mem_filter.mp (List.mem_filter.mp hap).1
    exact ⟨a, ha2.1, haid, by simpa using ha2.2⟩
  obtain ⟨db1, t1, hloop, hids, hmf, hmarks, hpres⟩ :=
    processLoop_marks oracle ((getPendingScheduledActions db t).map (fun a => a.id))
      db t hn hsub hfail2 hsched2
  have hbody : processScheduledActionsBody oracle db t = Except.ok (db1, t1) := by
    rw [processScheduledActionsBody_eq]
    exact hloop
  refine ⟨db1, t1, hbody, ?_, ?_⟩
  · unfold processScheduledActions
    rw [hbody]
  · intro a hap
    exact hmarks a.id (List.mem_map_of_mem _ hap)

/-- C6 amended witness: in the healthy store both due entries are
processed in one pass, the body returns without throwing, and neither
entry is left in status `scheduled`. -/
theorem C6_amended_isolation_witness :
    (processScheduledActionsBody (fun _ => execOkW) dbC6ok 100).isOk = true ∧
    ((logById (processScheduledActions (fun _ => execOkW) dbC6ok 100).1 1).all
        (fun b => decide (b.status ≠ Status.scheduled)) = true) ∧
    ((logById (processScheduledActions (fun _ => execOkW) dbC6ok 100).1 2).all
        (fun b => decide (b.status ≠ Status.scheduled)) = true) := by
  obtain ⟨db1, t1, hbody, hproc, hmarks⟩ :=
    @C6_amended_isolation (fun _ => execOkW) dbC6ok 100 (by decide) (by decide)
  refine ⟨by rw [hbody]; rfl, ?_, ?_⟩
  · obtain ⟨b, hb, hbst⟩ := hmarks logDueOneC6 (by decide)
    rw [hproc]
    show (logById db1 1).all _ = true
    have hb2 : logById db1 1 = some b := hb
    rw [hb2]
    simpa using hbst
  · obtain ⟨b, hb, hbst⟩ := hmarks logDueTwoC6 (by decide)
    rw [hproc]
    show (logById db1 2).all _ = true
    have hb2 : logById db1 2 = some b := hb
    rw [hb2]
    simpa using hbst



/-- An entry carrying a pre-existing details key `k`. -/
def logKC7 : ActivityLog :=
  { id := 1, ruleId := 1, triggeredAt := 0, status := Status.scheduled,
    details := [("k", JVal.s "v")], scheduleTime := some 10,
    executedAt := none, executionDuration := none }

/-- The C7 store: just the entry with the `k` key. -/
def dbC7 : DB :=
  { rules := [], actions := [], activityLogs := [logKC7], nextLogId := 2,
    markFails := [] }

/-- C7 counterexample: `markActivityLogAsExecuted` does NOT merge the
supplied details into the existing payload — the pre-existing key `k` is
gone after an update that passes a details argument naming only
`error`.  The SET clause writes the details column wholesale. -/
theorem C7_counterexample :
    detailsGet logKC7.details "k" = some (JVal.s "v") ∧
    (markActivityLogAsExecuted dbC7 1 Status.failed
          (some [("error", JVal.s "X")]) 50).toOption.map
        (fun r => r.1.map (fun b => detailsGet b.details "k"))
      = some (some none) :=
  ⟨rfl, rfl⟩

/-- C7 amended: `markActivityLogAsExecuted` is a single UPDATE that sets
status, `executedAt` and `executionDuration` on the rows with the given
id and returns the updated row (`none` when no row matches); when the
optional details argument is supplied it REPLACES the details payload
wholesale (pre-existing keys are dropped), and when it is omitted the
existing payload is kept.  The merge with the previous details on the
normal execution path is performed by the caller `executeAction`, which
spreads the old payload itself. -/
theorem C7_mark_replaces (db : DB) (id : Nat) (st : Status) (dopt : Option Details)
    (now : Nat) (hfail : db.markFails.contains id = false) :
    (markActivityLogAsExecuted db id st dopt now =
      Except.ok (((db.activityLogs.map (markUpd id st dopt now)).filter
                    (fun a => decide (a.id = id))).head?,
                 { db with activityLogs := db.activityLogs.map (markUpd id st dopt now) })) ∧
    (∀ a ∈ db.activityLogs, ¬ a.id = id → markUpd id st dopt now a = a) ∧
    (∀ a ∈ db.activityLogs, a.id = id →
        markUpd id st dopt now a
          = { a with
              status := st
              executedAt := some now
              executionDuration := some 0
              details := dopt.getD a.details }) ∧
    ((∀ a ∈ db.activityLogs, ¬ a.id = id) →
        ((db.activityLogs.map (markUpd id st dopt now)).filter
            (fun a => decide (a.id = id))).head? = none) ∧
    ((db.activityLogs.map (fun a => a.id)).Nodup →
      ∀ entry ∈ db.activityLogs, entry.id = id →
        ((db.activityLogs.map (markUpd id st dopt now)).filter
            (fun a => decide (a.id = id))).head?
          = some { entry with
                   status := st
                   executedAt := some now
                   executionDuration := some 0
                   details := dopt.getD entry.details }) := by
  refine ⟨mark_eq hfail, ?_, ?_, ?_, ?_⟩
  · intro a _ hne
    exact markUpd_of_ne hne
  · intro a _ heq
    unfold markUpd
    rw [if_pos heq]
  · intro hnone
    rw [head?_filter_eq_find?, List.find?_map]
    have hp : ((fun a : ActivityLog => decide (a.id = id)) ∘ markUpd id st dopt now)
        = fun a : ActivityLog => decide (a.id = id) := by
      funext a
      simp [Function.comp, markUpd_id]
    rw [hp]
    rw [List.find?_eq_none.mpr (fun x hx => by simpa using hnone x hx)]
    rfl
  · intro hn entry hmem heid
    rw [head?_filter_eq_find?, find?_map_markUpd hn hmem heid]
    unfold markUpd
    rw [if_pos heid]

/-- C7 amended witness: the update at a concrete store replaces the
details of the matched row. -/
theorem C7_mark_replaces_witness :
    ((dbC7.activityLogs.map (markUpd 1 Status.failed
          (some [("error", JVal.s "X")]) 50)).filter
        (fun a => decide (a.id = 1))).head?
      = some { logKC7 with
               status := Status.failed
               executedAt := some 50
               executionDuration := some 0
               details := [("error", JVal.s "X")] } := by
  have h := (C7_mark_replaces dbC7 1 Status.failed
      (some [("error", JVal.s "X")]) 50 (by decide)).2.2.2.2
  exact h (by decide) logKC7 (by decide) (by decide)



/-- A due scheduled entry for the C9 runs. -/
def logDueC9 : ActivityLog :=
  { id := 1, ruleId := 1, triggeredAt := 10, status := Status.scheduled,
    details := [], scheduleTime := some 20, executedAt := none,
    executionDuration := none }

/-- The C9 store: an active rule (with `lastTriggered = none`), its
action, and one due entry. -/
def dbC9 : DB :=
  { rules := [ruleW], actions := [actionW], activityLogs := [logDueC9],
    nextLogId := 2, markFails := [] }

/-- C9 counterexample: the executor reports FAILURE (the entry is marked
`failed`), yet the `lastTriggered` field of the rule is still updated — so
`lastTriggered` is not updated only on success-path execution. -/
theorem C9_counterexample :
    (getRuleById dbC9 1).map (fun ru => ru.lastTriggered) = some none ∧
    (executeAction dbC9 100 1 execFailW).toOption.map
        (fun r => ((logById r.1 1).map (fun b => b.status),
                   (getRuleById r.1 1).map (fun ru => ru.lastTriggered)))
      = some (some Status.failed, some (some 600)) := by
  refine ⟨rfl, by decide⟩

/-- C9 amended: `lastTriggered` is updated by the scheduler whenever the
executor actually runs — irrespective of the reported outcome, so on
`failed` runs as well as `success` runs — and is never modified by
`scheduleAction`, whose store update leaves the `rules` table
untouched. -/
theorem C9_amended_lastTriggered {db : DB} {t : Nat} {exec : ExecOutcome}
    {entry : ActivityLog} {rule : Rule} {action : Action}
    (hn : (db.activityLogs.map (fun a => a.id)).Nodup)
    (hmem : entry ∈ db.activityLogs)
    (hst : entry.status = Status.scheduled)
    (hfail : db.markFails.contains entry.id = false)
    (hrule : getRuleById db entry.ruleId = some rule)
    (hact : rule.isActive = true)
    (haction : getActionById db rule.actionId = some action) :
    (∀ (db2 : DB) (now ruleId delayMinutes : Nat) (details : Details),
        (scheduleAction db2 now ruleId delayMinutes details).2.rules = db2.rules) ∧
    ∃ db1, executeAction db t entry.id exec = Except.ok (db1, t + exec.dt) ∧
      getRuleById db1 rule.id = some { rule with lastTriggered := some (t + exec.dt) } := by
  have hfind := find?_sched_eq_some hn hmem hst
  obtain ⟨r, db1, hmark, hdb1, hlog, hids, hrules, hmf, hpres⟩ :=
    @mark_post (updateRuleLastTriggered db rule.id (t + exec.dt)).2 entry.id
      (if exec.success then Status.success else Status.failed)
      (detailsInsert entry.details "execution" exec.result)
      (t + exec.dt) hfail hn entry hmem rfl
  refine ⟨fun _ _ _ _ _ => rfl, db1, ?_, ?_⟩
  · unfold executeAction executeActionBody
    simp [hfind, hrule, hact, haction, hmark]
  · have hid := getRuleById_some_id hrule
    have hrule2 : getRuleById db rule.id = some rule := by
      rw [hid]
      exact hrule
    have hupd := @getRuleById_updateRuleLastTriggered db rule.id (t + exec.dt) rule hrule2
    have heq : getRuleById db1 rule.id
        = getRuleById (updateRuleLastTriggered db rule.id (t + exec.dt)).2 rule.id := by
      unfold getRuleById
      rw [hrules]
    rw [heq, hupd]

/-- C9 amended witness: in the concrete store the failed run still
stamps `lastTriggered` with the execution time, while `scheduleAction`
leaves the rules table unchanged. -/
theorem C9_amended_lastTriggered_witness :
    (scheduleAction dbC9 50 1 3 []).2.rules = dbC9.rules ∧
    (getRuleById (loopDB (executeAction dbC9 100 1 execFailW)) 1).map
        (fun ru => ru.lastTriggered) = some (some 600) := by
  obtain ⟨hsched, db1, hex, hrule⟩ :=
    @C9_amended_lastTriggered dbC9 100 execFailW logDueC9 ruleW actionW
      (by decide) (by decide) (by decide) (by decide) (by decide) (by decide) (by decide)
  refine ⟨hsched dbC9 50 1 3 [], ?_⟩
  have hex2 : executeAction dbC9 100 1 execFailW = Except.ok (db1, 600) := hex
  rw [hex2]
  show (getRuleById db1 1).map _ = _
  have hr2 : getRuleById db1 1 = some { ruleW with lastTriggered := some 600 } := hrule
  rw [hr2]
  rfl


end AutomationMaster
